import Mathlib

/-!
Verification of the chat-room runtime of `main.py`: the connection
registry, broadcast engine, command authorizer and session protocol.
Python dictionaries and lists are embedded as Lean structures and lists;
the per-room list of connection dicts becomes `List Conn`, the
`room_roles` table restricted to one room becomes an association list
`List (Int × String)`, and websocket sends/closes become explicit
`Emit` values collected by each operation.  A websocket object's
identity is embedded as a natural-number handle (`Conn.ws`): two model
connections carry the same handle exactly when they stand for the same
Python websocket object.
-/

/-- One entry of a room membership snapshot, as produced by
`ConnectionManager.get_room_users`. -/
structure UserEntry where
  user_id : Int
  username : String
  role : String
deriving Repr, DecidableEq

/-- Outbound events of `main.py` (the JSON payloads sent over websockets). -/
inductive Event where
  | user_joined (user_id : Int) (username role : String) (users : List UserEntry)
  | user_left (user_id : Int) (username : String) (users : List UserEntry)
  | chat_message (user_id : Int) (username message timestamp : String)
  | image_message (user_id : Int) (username url timestamp : String)
  | role_update (target_id : Int) (role : String) (users : List UserEntry)
  | kicked (reason : String)
  | warn (reason : String)
  | error (message : String)
deriving Repr, DecidableEq

/-- An observable output of an operation: a broadcast to the whole room
(`manager.broadcast`), a private send to one websocket
(`conn["ws"].send_json`), or a forced close of one websocket
(`conn["ws"].close(code)`). -/
inductive Emit where
  | toRoom (e : Event)
  | toConn (ws : Nat) (e : Event)
  | closeWs (ws : Nat) (code : Nat)
deriving Repr, DecidableEq

/-- One live connection dict of `ConnectionManager.rooms[room_id]`:
`{"ws": websocket, "user_id": id, "username": str, "role": str}`. -/
structure Conn where
  ws : Nat
  user_id : Int
  username : String
  role : String
deriving Repr, DecidableEq

/-- `roles.get(uid, "user")` on the dict returned by `get_room_roles(room_id)`:
the room role recorded for `uid`, defaulting to `"user"`. -/
def rolesGet (roomRoles : List (Int × String)) (uid : Int) : String :=
  match roomRoles.find? (fun p => p.1 == uid) with
  | some p => p.2
  | none => "user"

/-- `has_privilege` from `handle_command` in `main.py` (lines 625-633),
with its two closed-over variables `global_role` and `caller_role` made
explicit parameters. -/
def has_privilege (global_role caller_role action : String) : Bool :=
  if global_role == "sysop" then true
  else if (action == "kick" || action == "warn") &&
      (caller_role == "owner" || caller_role == "host") then true
  else if (action == "assign_host" || action == "assign_owner") &&
      caller_role == "owner" then true
  else false

/-- C1, counterexample: the claim says the authorizer "denies every other
command", but `has_privilege` grants a sysop any action name whatsoever:
at the concrete triple (sysop, user, "frobnicate") it allows. -/
theorem has_privilege_sysop_unknown_allowed :
    ¬ (has_privilege "sysop" "user" "frobnicate" = false) := by
  decide

/-- C1 (amended): `has_privilege` is a pure function of
(globalRole, roomRole, command); it allows exactly when globalRole is
sysop (for any command whatsoever, the sysop bypass is absolute), or the
command is kick/warn and roomRole is owner or host, or the command is
assign_host/assign_owner and roomRole is owner; every other triple is
denied. -/
theorem has_privilege_characterization (g r c : String) :
    has_privilege g r c = true ↔
      (g = "sysop" ∨
       ((c = "kick" ∨ c = "warn") ∧ (r = "owner" ∨ r = "host")) ∨
       ((c = "assign_host" ∨ c = "assign_owner") ∧ r = "owner")) := by
  unfold has_privilege
  by_cases hg : g = "sysop" <;>
    by_cases hro : r = "owner" <;> by_cases hrh : r = "host" <;>
    by_cases hk : c = "kick" <;> by_cases hw : c = "warn" <;>
    by_cases hh : c = "assign_host" <;> by_cases ho : c = "assign_owner" <;>
    simp_all

/-- `ConnectionManager.get_room_users(room_id)` restricted to one room's
connection list: the defensive snapshot of `{user_id, username, role}`
dicts included in broadcast payloads. -/
def get_room_users (conns : List Conn) : List UserEntry :=
  conns.map (fun c => ⟨c.user_id, c.username, c.role⟩)

/-- `ConnectionManager.get_connection(room_id, user_id)`: first connection
in the room whose `user_id` matches, or none. -/
def get_connection (conns : List Conn) (uid : Int) : Option Conn :=
  conns.find? (fun c => c.user_id == uid)

/-- `ConnectionManager.connect(room_id, ws, user)` restricted to one room:
appends the connection dict (role looked up via `get_room_roles` with
default `"user"`) and broadcasts a `user_joined` event carrying the fresh
snapshot.  Returns the new room list and the emitted outputs. -/
def connect (conns : List Conn) (roomRoles : List (Int × String)) (ws : Nat)
    (uid : Int) (uname : String) : List Conn × List Emit :=
  let role := rolesGet roomRoles uid
  let conn_info : Conn := ⟨ws, uid, uname, role⟩
  let conns' := conns ++ [conn_info]
  (conns', [.toRoom (.user_joined uid uname role (get_room_users conns'))])

/-- `ConnectionManager.disconnect(room_id, ws)` restricted to one room.
The Python body iterates a copy of the room list, removes the first entry
whose `"ws"` is the given websocket and breaks, then returns the loop
variable `conn`.  When no entry matches, `conn` is left holding the LAST
entry inspected (which was not removed); when the room list is empty the
loop never ran and `return conn` raises `NameError`, embedded here as
`none`.  On a match the result is `some (new list, removed entry)`. -/
def disconnect (conns : List Conn) (ws : Nat) : Option (List Conn × Conn) :=
  match conns.find? (fun c => c.ws == ws) with
  | some c => some (conns.erase c, c)
  | none =>
    match conns.getLast? with
    | some c => some (conns, c)
    | none => none

/-- The `finally` block of `websocket_endpoint` (lines 604-613): call
`manager.disconnect`, and since the returned dict is always truthy
(`if conn:`), broadcast `user_left` with the refreshed snapshot.  `none`
propagates the `NameError` of `disconnect` on an empty room. -/
def teardown (conns : List Conn) (ws : Nat) : Option (List Conn × List Emit) :=
  match disconnect conns ws with
  | none => none
  | some (conns', c) =>
      some (conns', [.toRoom (.user_left c.user_id c.username (get_room_users conns'))])

/-- C2: evaluating `disconnect` and the teardown at the failing input.  With
room list `[{ws 10, user 1 "alice"}]`, a disconnect for the already-absent
handle 20 does NOT report none-found: it returns the entry with handle 10
without removing it, so the teardown broadcasts a spurious `user_left` for
user 1, who never left; and on an empty room the `return conn` of
`disconnect` raises `NameError` (embedded as `none`) instead of reporting
none-found. -/
theorem disconnect_stale_return_run :
    disconnect [⟨10, 1, "alice", "user"⟩] 20 =
      some ([⟨10, 1, "alice", "user"⟩], ⟨10, 1, "alice", "user"⟩) ∧
    disconnect ([] : List Conn) 20 = none ∧
    teardown [⟨10, 1, "alice", "user"⟩] 20 =
      some ([⟨10, 1, "alice", "user"⟩],
        [.toRoom (.user_left 1 "alice" [⟨1, "alice", "user"⟩])]) := by
  refine ⟨rfl, rfl, rfl⟩

/-- The loop of `ConnectionManager.broadcast`: iterate the snapshot
`list(conns)` (first argument); a successful `send_json` delivers to that
connection, a raised exception is caught and `conns.remove(conn)` prunes
the first equal entry from the live list (second argument).  `sendOk`
embeds whether the transport send succeeds for a connection.  Returns the
final live list and the list of connections that received the event, in
iteration order. -/
def broadcastAux (sendOk : Conn → Bool) : List Conn → List Conn → List Conn × List Conn
  | [], conns => (conns, [])
  | c :: rest, conns =>
    if sendOk c then
      let r := broadcastAux sendOk rest conns
      (r.1, c :: r.2)
    else
      broadcastAux sendOk rest (conns.erase c)

/-- `ConnectionManager.broadcast(room_id, message)` restricted to one room:
take the snapshot of the room list at entry and run the send loop over it. -/
def broadcastRun (sendOk : Conn → Bool) (conns : List Conn) : List Conn × List Conn :=
  broadcastAux sendOk conns conns

theorem broadcastAux_delivered (sendOk : Conn → Bool) :
    ∀ (s l : List Conn), (broadcastAux sendOk s l).2 = s.filter sendOk := by
  intro s
  induction s with
  | nil => intro l; rfl
  | cons c rest ih =>
    intro l
    by_cases h : sendOk c = true <;> simp [broadcastAux, h, List.filter_cons, ih]

theorem broadcastAux_head_not_mem (sendOk : Conn → Bool) :
    ∀ (s l : List Conn) (x : Conn), x ∉ s →
      (broadcastAux sendOk s (x :: l)).1 = x :: (broadcastAux sendOk s l).1 := by
  intro s
  induction s with
  | nil => intro l x _; rfl
  | cons c rest ih =>
    intro l x hx
    have hxc : x ≠ c := fun h => hx (h ▸ List.mem_cons_self c rest)
    have hxrest : x ∉ rest := fun h => hx (List.mem_cons_of_mem c h)
    by_cases h : sendOk c = true
    · simp [broadcastAux, h, ih _ _ hxrest]
    · have herase : (x :: l).erase c = x :: l.erase c :=
        List.erase_cons_tail (by simp [hxc])
      simp [broadcastAux, h, herase, ih _ _ hxrest]

/-- C3: with distinct live connection dicts (no Python dict object appears
twice in a room list), `broadcast` delivers the event to exactly the
connections of the entry snapshot whose transport send succeeds — each
per-connection failure is caught individually and stops no other delivery —
and the room list afterwards is the snapshot with exactly the failed
connections removed, so a failed connection is absent from every
subsequent snapshot. -/
theorem broadcast_delivers_and_prunes (sendOk : Conn → Bool) (conns : List Conn)
    (h : conns.Nodup) :
    (broadcastRun sendOk conns).2 = conns.filter sendOk ∧
    (broadcastRun sendOk conns).1 = conns.filter sendOk ∧
    ∀ c ∈ conns, sendOk c = true → c ∈ (broadcastRun sendOk conns).2 := by
  refine ⟨broadcastAux_delivered sendOk conns conns, ?_, ?_⟩
  · unfold broadcastRun
    induction conns with
    | nil => rfl
    | cons c rest ih =>
      have hcrest : c ∉ rest := (List.nodup_cons.mp h).1
      have hrest : rest.Nodup := (List.nodup_cons.mp h).2
      by_cases hs : sendOk c = true
      · simp only [broadcastAux, hs, if_true]
        rw [broadcastAux_head_not_mem sendOk rest rest c hcrest]
        simp [List.filter_cons, hs, ih hrest]
      · simp only [broadcastAux, hs, if_false, List.erase_cons_head]
        simp [List.filter_cons, hs, ih hrest]
  · intro c hc hsend
    show c ∈ (broadcastAux sendOk conns conns).2
    rw [broadcastAux_delivered sendOk conns conns]
    exact List.mem_filter.mpr ⟨hc, hsend⟩

/-- Witness for C3 at the spec's own scenario: three live connections with
the middle transport failed; the two healthy ones receive the event and
the failed one is pruned from the room list. -/
theorem broadcast_delivers_and_prunes_check :
    ([⟨1, 1, "a", "owner"⟩, ⟨2, 2, "b", "host"⟩, ⟨3, 3, "c", "user"⟩] : List Conn).Nodup ∧
    (broadcastRun (fun c => !(c.ws == 2))
        [⟨1, 1, "a", "owner"⟩, ⟨2, 2, "b", "host"⟩, ⟨3, 3, "c", "user"⟩]).2 =
      [⟨1, 1, "a", "owner"⟩, ⟨3, 3, "c", "user"⟩] ∧
    (broadcastRun (fun c => !(c.ws == 2))
        [⟨1, 1, "a", "owner"⟩, ⟨2, 2, "b", "host"⟩, ⟨3, 3, "c", "user"⟩]).1 =
      [⟨1, 1, "a", "owner"⟩, ⟨3, 3, "c", "user"⟩] := by
  have h := broadcast_delivers_and_prunes (fun c => !(c.ws == 2))
    [⟨1, 1, "a", "owner"⟩, ⟨2, 2, "b", "host"⟩, ⟨3, 3, "c", "user"⟩] (by decide)
  exact ⟨by decide, h.1.trans (by decide), h.2.1.trans (by decide)⟩

/-- `global_role = caller["role"] if caller else "user"` in `handle_command`:
the caller's global role column, defaulting to `"user"` when
`get_user_by_id` finds no row. -/
def global_role_of (callerRow : Option String) : String :=
  match callerRow with
  | some r => r
  | none => "user"

/-- `assign_room_role(room_id, user_id, role)` restricted to one room:
no-op unless the role is `"owner"` or `"host"`, otherwise
`INSERT OR REPLACE` on the primary key `(room_id, user_id)`. -/
def assign_room_role (roomRoles : List (Int × String)) (uid : Int)
    (role : String) : List (Int × String) :=
  if role == "owner" || role == "host" then
    (uid, role) :: roomRoles.filter (fun p => !(p.1 == uid))
  else roomRoles

/-- `target_conn = manager.get_connection(...); if target_conn:
target_conn["role"] = role` — the in-place mutation of the first
connection dict whose `user_id` matches; every later connection of the
same user keeps its old cached role. -/
def setRoleFirst : List Conn → Int → String → List Conn
  | [], _, _ => []
  | c :: rest, uid, r =>
    if c.user_id == uid then { c with role := r } :: rest
    else c :: setRoleFirst rest uid r

/-- The result of `handle_command`: the room's `room_roles` table after the
command, the room's connection list after the command, and the outputs
emitted (private sends, forced closes, broadcasts), in order. -/
structure CmdResult where
  directory : List (Int × String)
  conns : List Conn
  emits : List Emit
deriving Repr, DecidableEq

/-- `handle_command(room_id, caller_id, command, target_id, reason)` from
`main.py` (lines 616-675), restricted to one room.  `roomRoles` is the
`get_room_roles(room_id)` table, `conns` the room's live connection list,
`callerRow` the `role` column of `get_user_by_id(caller_id)` (none when
the row is missing). -/
def handle_command (roomRoles : List (Int × String)) (conns : List Conn)
    (caller_id : Int) (callerRow : Option String) (command : String)
    (target_id : Int) (reason : String) : CmdResult :=
  let caller_role := rolesGet roomRoles caller_id
  let global_role := global_role_of callerRow
  if command == "kick" && has_privilege global_role caller_role "kick" then
    match get_connection conns target_id with
    | some tc => ⟨roomRoles, conns, [.toConn tc.ws (.kicked reason), .closeWs tc.ws 1000]⟩
    | none => ⟨roomRoles, conns, []⟩
  else if command == "warn" && has_privilege global_role caller_role "warn" then
    match get_connection conns target_id with
    | some tc => ⟨roomRoles, conns, [.toConn tc.ws (.warn reason)]⟩
    | none => ⟨roomRoles, conns, []⟩
  else if command == "assign_host" && has_privilege global_role caller_role "assign_host" then
    let roomRoles' := assign_room_role roomRoles target_id "host"
    let conns' := setRoleFirst conns target_id "host"
    ⟨roomRoles', conns', [.toRoom (.role_update target_id "host" (get_room_users conns'))]⟩
  else if command == "assign_owner" && has_privilege global_role caller_role "assign_owner" then
    let roomRoles' := assign_room_role roomRoles target_id "owner"
    let conns' := setRoleFirst conns target_id "owner"
    ⟨roomRoles', conns', [.toRoom (.role_update target_id "owner" (get_room_users conns'))]⟩
  else
    match get_connection conns caller_id with
    | some cc =>
        ⟨roomRoles, conns,
          [.toConn cc.ws (.error "You are not authorized to perform this action or unknown command.")]⟩
    | none => ⟨roomRoles, conns, []⟩

/-- C5: a command event that is denied — the command is not one of the four
known commands (unknown commands are always denied), or `has_privilege`
rejects the caller for it — leaves the room role table and the connection
list untouched and emits only a single private `error` to the caller's
first connection (nothing at all when the caller has no live connection);
no broadcast and no event to anyone else is produced. -/
theorem denied_command_private_error_only (roomRoles : List (Int × String))
    (conns : List Conn) (caller_id : Int) (callerRow : Option String)
    (command : String) (target_id : Int) (reason : String)
    (hden : (¬ (command = "kick" ∨ command = "warn" ∨
                command = "assign_host" ∨ command = "assign_owner")) ∨
            has_privilege (global_role_of callerRow) (rolesGet roomRoles caller_id)
              command = false) :
    (handle_command roomRoles conns caller_id callerRow command target_id reason).directory
      = roomRoles ∧
    (handle_command roomRoles conns caller_id callerRow command target_id reason).conns
      = conns ∧
    (handle_command roomRoles conns caller_id callerRow command target_id reason).emits
      = (match get_connection conns caller_id with
         | some cc =>
             [.toConn cc.ws (.error "You are not authorized to perform this action or unknown command.")]
         | none => []) := by
  have hne : ∀ (a : String), command ≠ a → (command == a) = false := by
    intro a ha
    simp [ha]
  have hk : (command == "kick" &&
      has_privilege (global_role_of callerRow) (rolesGet roomRoles caller_id) "kick") = false := by
    rcases hden with hden | hden
    · have h1 : command ≠ "kick" := fun h => hden (Or.inl h)
      simp [hne "kick" h1]
    · by_cases hc : command = "kick"
      · subst hc
        simp [hden]
      · simp [hne "kick" hc]
  have hw : (command == "warn" &&
      has_privilege (global_role_of callerRow) (rolesGet roomRoles caller_id) "warn") = false := by
    rcases hden with hden | hden
    · have h1 : command ≠ "warn" := fun h => hden (Or.inr (Or.inl h))
      simp [hne "warn" h1]
    · by_cases hc : command = "warn"
      · subst hc
        simp [hden]
      · simp [hne "warn" hc]
  have hh : (command == "assign_host" &&
      has_privilege (global_role_of callerRow) (rolesGet roomRoles caller_id) "assign_host") = false := by
    rcases hden with hden | hden
    · have h1 : command ≠ "assign_host" := fun h => hden (Or.inr (Or.inr (Or.inl h)))
      simp [hne "assign_host" h1]
    · by_cases hc : command = "assign_host"
      · subst hc
        simp [hden]
      · simp [hne "assign_host" hc]
  have ho : (command == "assign_owner" &&
      has_privilege (global_role_of callerRow) (rolesGet roomRoles caller_id) "assign_owner") = false := by
    rcases hden with hden | hden
    · have h1 : command ≠ "assign_owner" := fun h => hden (Or.inr (Or.inr (Or.inr h)))
      simp [hne "assign_owner" h1]
    · by_cases hc : command = "assign_owner"
      · subst hc
        simp [hden]
      · simp [hne "assign_owner" hc]
  unfold handle_command
  simp only [hk, hw, hh, ho, if_false, Bool.false_eq_true]
  cases get_connection conns caller_id <;> simp

/-- Witness for C5: user 9 (no global row needed: global role defaults to
`"user"`, room role `"user"`) issues `assign_host`; the table is unchanged
and the only output is the private `error` to their own connection. -/
theorem denied_command_private_error_only_check :
    (handle_command [(1, "owner")] [⟨7, 9, "carol", "user"⟩] 9 (some "user")
        "assign_host" 1 "").directory = [(1, "owner")] ∧
    (handle_command [(1, "owner")] [⟨7, 9, "carol", "user"⟩] 9 (some "user")
        "assign_host" 1 "").conns = [⟨7, 9, "carol", "user"⟩] ∧
    (handle_command [(1, "owner")] [⟨7, 9, "carol", "user"⟩] 9 (some "user")
        "assign_host" 1 "").emits =
      [.toConn 7 (.error "You are not authorized to perform this action or unknown command.")] := by
  have h := denied_command_private_error_only [(1, "owner")] [⟨7, 9, "carol", "user"⟩]
    9 (some "user") "assign_host" 1 "" (Or.inr (by decide))
  exact ⟨h.1, h.2.1, h.2.2.trans (by decide)⟩

theorem has_privilege_kick_eq_warn (g r : String) :
    has_privilege g r "kick" = has_privilege g r "warn" := by
  unfold has_privilege
  rfl

/-- C10: an authorized `kick` or `warn` whose target has no live connection
in the room is a complete no-op: the role table and the connection list
are unchanged and no output whatsoever is emitted — in particular the
caller gets no indication that the target was absent. -/
theorem kick_warn_absent_target_noop (roomRoles : List (Int × String))
    (conns : List Conn) (caller_id : Int) (callerRow : Option String)
    (target_id : Int) (reason : String)
    (hpriv : has_privilege (global_role_of callerRow) (rolesGet roomRoles caller_id)
      "kick" = true)
    (habs : get_connection conns target_id = none) :
    handle_command roomRoles conns caller_id callerRow "kick" target_id reason
      = ⟨roomRoles, conns, []⟩ ∧
    handle_command roomRoles conns caller_id callerRow "warn" target_id reason
      = ⟨roomRoles, conns, []⟩ := by
  have hpw : has_privilege (global_role_of callerRow) (rolesGet roomRoles caller_id)
      "warn" = true :=
    (has_privilege_kick_eq_warn _ _).symm.trans hpriv
  constructor
  · unfold handle_command
    simp [hpriv, habs]
  · unfold handle_command
    simp [hpw, habs]

/-- Witness for C10: an owner kicks and warns user 5, who holds no
connection in the room; both commands change nothing and emit nothing. -/
theorem kick_warn_absent_target_noop_check :
    handle_command [(2, "owner")] [⟨1, 2, "alice", "owner"⟩] 2 (some "user") "kick" 5 "bye"
      = ⟨[(2, "owner")], [⟨1, 2, "alice", "owner"⟩], []⟩ ∧
    handle_command [(2, "owner")] [⟨1, 2, "alice", "owner"⟩] 2 (some "user") "warn" 5 "bye"
      = ⟨[(2, "owner")], [⟨1, 2, "alice", "owner"⟩], []⟩ :=
  kick_warn_absent_target_noop [(2, "owner")] [⟨1, 2, "alice", "owner"⟩] 2 (some "user")
    5 "bye" (by decide) (by decide)

/-- C6, counterexample: user 5 holds two simultaneous connections (two
tabs) to the room; a sysop's `assign_host` on user 5 persists host in the
role table but updates only the FIRST connection's cached role, so the
claimed invariant — every live connection's cached role equals the
Directory's `roleOf` — is false immediately after the command. -/
theorem writethrough_two_tabs_violation :
    ¬ (∀ c ∈ (handle_command [] [⟨1, 5, "bob", "user"⟩, ⟨2, 5, "bob", "user"⟩]
          7 (some "sysop") "assign_host" 5 "").conns,
        c.role = rolesGet (handle_command [] [⟨1, 5, "bob", "user"⟩, ⟨2, 5, "bob", "user"⟩]
          7 (some "sysop") "assign_host" 5 "").directory c.user_id) := by
  decide

theorem has_privilege_host_eq_owner (g r : String) :
    has_privilege g r "assign_host" = has_privilege g r "assign_owner" := by
  unfold has_privilege
  rfl

theorem find?_filter_other_key (roomRoles : List (Int × String)) (t u : Int)
    (h : u ≠ t) :
    (roomRoles.filter (fun p => !(p.1 == t))).find? (fun p => p.1 == u)
      = roomRoles.find? (fun p => p.1 == u) := by
  have htu : (t == u) = false := by
    simp only [beq_eq_false_iff_ne, ne_eq]
    exact fun hh => h hh.symm
  induction roomRoles with
  | nil => rfl
  | cons p rest ih =>
    by_cases hp : p.1 = t
    · have h2 : (p.1 == u) = false := by
        simp only [beq_eq_false_iff_ne, ne_eq, hp]
        exact fun hh => h hh.symm
      simp [List.filter_cons, hp, List.find?, h2, ih, htu]
    · by_cases hu : p.1 = u
      · simp [List.filter_cons, hp, List.find?, hu, h]
      · have hbu : (p.1 == u) = false := by simp [hu]
        simp [List.filter_cons, hp, List.find?, hu, hbu, ih]

theorem rolesGet_assign (roomRoles : List (Int × String)) (t u : Int) (r : String)
    (hr : (r == "owner" || r == "host") = true) :
    rolesGet (assign_room_role roomRoles t r) u
      = if u = t then r else rolesGet roomRoles u := by
  unfold assign_room_role rolesGet
  rw [if_pos hr]
  by_cases hu : u = t
  · subst hu
    simp [List.find?]
  · have ht : (t == u) = false := by
      simp only [beq_eq_false_iff_ne, ne_eq]
      exact fun hh => hu hh.symm
    simp only [List.find?, ht]
    rw [find?_filter_other_key roomRoles t u hu, if_neg hu]

theorem setRoleFirst_at_most_one (conns : List Conn) (t : Int) (r : String)
    (hone : (conns.filter (fun c => c.user_id == t)).length ≤ 1) :
    ∀ c ∈ setRoleFirst conns t r,
      (c.user_id = t → c.role = r) ∧ (c.user_id ≠ t → c ∈ conns) := by
  induction conns with
  | nil =>
    intro c hc
    cases hc
  | cons c0 rest ih =>
    intro c hc
    by_cases h0 : c0.user_id = t
    · have hlen : ((c0 :: rest).filter (fun c => c.user_id == t)).length
          = (rest.filter (fun c => c.user_id == t)).length + 1 := by
        simp [List.filter_cons, h0]
      have hfil : ∀ a ∈ rest, a.user_id ≠ t := by
        intro a ha hat
        have hmem : a ∈ rest.filter (fun c => c.user_id == t) :=
          List.mem_filter.mpr ⟨ha, by simp [hat]⟩
        have hz : (rest.filter (fun c => c.user_id == t)).length = 0 := by omega
        rw [List.length_eq_zero.mp hz] at hmem
        cases hmem
      have hset : setRoleFirst (c0 :: rest) t r = { c0 with role := r } :: rest := by
        simp [setRoleFirst, h0]
      rw [hset] at hc
      rcases List.mem_cons.mp hc with hc | hc
      · subst hc
        exact ⟨fun _ => rfl, fun hne => absurd h0 hne⟩
      · exact ⟨fun hct => absurd hct (hfil c hc), fun _ => List.mem_cons_of_mem c0 hc⟩
    · have hset : setRoleFirst (c0 :: rest) t r = c0 :: setRoleFirst rest t r := by
        simp [setRoleFirst, h0]
      have hone' : (rest.filter (fun c => c.user_id == t)).length ≤ 1 := by
        have hf : (c0 :: rest).filter (fun c => c.user_id == t)
            = rest.filter (fun c => c.user_id == t) := by
          simp [List.filter_cons, h0]
        rw [hf] at hone
        exact hone
      rw [hset] at hc
      rcases List.mem_cons.mp hc with hc | hc
      · subst hc
        exact ⟨fun hct => absurd hct h0, fun _ => List.mem_cons_self _ _⟩
      · obtain ⟨h1, h2⟩ := ih hone' c hc
        exact ⟨h1, fun hne => List.mem_cons_of_mem c0 (h2 hne)⟩

/-- C6 (amended): an allowed `assign_host` or `assign_owner` persists the
role in the room role table and updates the cached role of the FIRST live
connection found for the target (later simultaneous connections of the
same user are left stale), then broadcasts exactly one `role_update`
carrying the refreshed membership snapshot; consequently the write-through
invariant — every live connection's cached role equals the table's
`roleOf` — is preserved whenever the target holds at most one live
connection in the room. -/
theorem assign_writethrough_single_conn (roomRoles : List (Int × String))
    (conns : List Conn) (caller_id : Int) (callerRow : Option String)
    (target_id : Int) (reason : String)
    (hinv : ∀ c ∈ conns, c.role = rolesGet roomRoles c.user_id)
    (hone : (conns.filter (fun c => c.user_id == target_id)).length ≤ 1)
    (hpriv : has_privilege (global_role_of callerRow) (rolesGet roomRoles caller_id)
      "assign_host" = true) :
    (rolesGet (handle_command roomRoles conns caller_id callerRow "assign_host"
        target_id reason).directory target_id = "host" ∧
     (∀ c ∈ (handle_command roomRoles conns caller_id callerRow "assign_host"
          target_id reason).conns,
        c.role = rolesGet (handle_command roomRoles conns caller_id callerRow "assign_host"
          target_id reason).directory c.user_id) ∧
     (handle_command roomRoles conns caller_id callerRow "assign_host"
          target_id reason).emits
       = [.toRoom (.role_update target_id "host"
           (get_room_users (handle_command roomRoles conns caller_id callerRow "assign_host"
             target_id reason).conns))]) ∧
    (rolesGet (handle_command roomRoles conns caller_id callerRow "assign_owner"
        target_id reason).directory target_id = "owner" ∧
     (∀ c ∈ (handle_command roomRoles conns caller_id callerRow "assign_owner"
          target_id reason).conns,
        c.role = rolesGet (handle_command roomRoles conns caller_id callerRow "assign_owner"
          target_id reason).directory c.user_id) ∧
     (handle_command roomRoles conns caller_id callerRow "assign_owner"
          target_id reason).emits
       = [.toRoom (.role_update target_id "owner"
           (get_room_users (handle_command roomRoles conns caller_id callerRow "assign_owner"
             target_id reason).conns))]) := by
  have hpriv2 : has_privilege (global_role_of callerRow) (rolesGet roomRoles caller_id)
      "assign_owner" = true := (has_privilege_host_eq_owner _ _) ▸ hpriv
  have hres1 : handle_command roomRoles conns caller_id callerRow "assign_host"
      target_id reason
      = ⟨assign_room_role roomRoles target_id "host",
         setRoleFirst conns target_id "host",
         [.toRoom (.role_update target_id "host"
           (get_room_users (setRoleFirst conns target_id "host")))]⟩ := by
    unfold handle_command
    simp [hpriv]
  have hres2 : handle_command roomRoles conns caller_id callerRow "assign_owner"
      target_id reason
      = ⟨assign_room_role roomRoles target_id "owner",
         setRoleFirst conns target_id "owner",
         [.toRoom (.role_update target_id "owner"
           (get_room_users (setRoleFirst conns target_id "owner")))]⟩ := by
    unfold handle_command
    simp [hpriv2]
  rw [hres1, hres2]
  dsimp only
  refine ⟨⟨?_, ?_, rfl⟩, ?_, ?_, rfl⟩
  · rw [rolesGet_assign roomRoles target_id target_id "host" (by decide), if_pos rfl]
  · intro c hc
    rw [rolesGet_assign roomRoles target_id c.user_id "host" (by decide)]
    by_cases hct : c.user_id = target_id
    · rw [if_pos hct]
      exact (setRoleFirst_at_most_one conns target_id "host" hone c hc).1 hct
    · rw [if_neg hct]
      exact hinv c ((setRoleFirst_at_most_one conns target_id "host" hone c hc).2 hct)
  · rw [rolesGet_assign roomRoles target_id target_id "owner" (by decide), if_pos rfl]
  · intro c hc
    rw [rolesGet_assign roomRoles target_id c.user_id "owner" (by decide)]
    by_cases hct : c.user_id = target_id
    · rw [if_pos hct]
      exact (setRoleFirst_at_most_one conns target_id "owner" hone c hc).1 hct
    · rw [if_neg hct]
      exact hinv c ((setRoleFirst_at_most_one conns target_id "owner" hone c hc).2 hct)

/-- Witness for C6 (amended), on the spec's scenario: owner `alice` (user 1)
promotes `carol` (user 3, one live connection) to host; the table maps
user 3 to host, the single cached role is updated in the same step, and
one `role_update` with the refreshed snapshot is broadcast. -/
theorem assign_writethrough_single_conn_check :
    rolesGet (handle_command [(1, "owner")]
        [⟨1, 1, "alice", "owner"⟩, ⟨3, 3, "carol", "user"⟩]
        1 (some "user") "assign_host" 3 "").directory 3 = "host" ∧
    (handle_command [(1, "owner")] [⟨1, 1, "alice", "owner"⟩, ⟨3, 3, "carol", "user"⟩]
        1 (some "user") "assign_host" 3 "").conns
      = [⟨1, 1, "alice", "owner"⟩, ⟨3, 3, "carol", "host"⟩] ∧
    (handle_command [(1, "owner")] [⟨1, 1, "alice", "owner"⟩, ⟨3, 3, "carol", "user"⟩]
        1 (some "user") "assign_host" 3 "").emits
      = [.toRoom (.role_update 3 "host" [⟨1, "alice", "owner"⟩, ⟨3, "carol", "host"⟩])] := by
  have h := assign_writethrough_single_conn [(1, "owner")]
    [⟨1, 1, "alice", "owner"⟩, ⟨3, 3, "carol", "user"⟩]
    1 (some "user") 3 "" (by decide) (by decide) (by decide)
  exact ⟨h.1.1, by decide, by decide⟩

/-- The numeric value of a decimal digit character, or none. -/
def digitVal? (ch : Char) : Option Nat :=
  if '0' ≤ ch ∧ ch ≤ '9' then some (ch.toNat - '0'.toNat) else none

/-- Accumulate decimal digits left to right; none on a non-digit or when no
digit was seen. -/
def natOfDigits : List Char → Option Nat → Option Nat
  | [], acc => acc
  | ch :: rest, acc =>
    match digitVal? ch, acc with
    | some d, some n => natOfDigits rest (some (n * 10 + d))
    | some d, none => natOfDigits rest (some d)
    | none, _ => none

/-- Python `int()` on the decimal token forms exercised by the endpoint:
an optional minus sign followed by one or more digits; none embeds the
raised `ValueError`. -/
def pyInt? (s : String) : Option Int :=
  match s.data with
  | [] => none
  | '-' :: rest =>
    (match natOfDigits rest none with
     | some n => some (-(n : Int))
     | none => none)
  | l =>
    (match natOfDigits l none with
     | some n => some ((n : Int))
     | none => none)

/-- The identity-resolution steps of `websocket_endpoint` (lines 535-547):
take the `user_id` cookie when truthy (present and non-empty); otherwise
fall back to `str(int(query_param))`, where a missing parameter
(`int(None)`, a `TypeError`) or an unparsable one (`ValueError`) closes
the socket; finally `int(...)` the chosen string, closing on failure.
A `none` result means the session is closed with code 1008. -/
def resolveUserId (cookie qp : Option String) : Option Int :=
  let cookieVal : Option String :=
    match cookie with
    | some c => if c == "" then none else some c
    | none => none
  match cookieVal with
  | some c => pyInt? c
  | none =>
    match qp with
    | none => none
    | some q =>
      match pyInt? q with
      | none => none
      | some n => some n

/-- The `username` and `role` columns of a `users` table row, as consumed
by the endpoint. -/
structure UserRow where
  username : String
  role : String
deriving Repr, DecidableEq

/-- The connection-establishment phase of `websocket_endpoint` (lines
530-556): resolve the identity, look the user up (`get_user_by_id`),
check `is_banned`, and only then register via `manager.connect` and
broadcast `user_joined`.  Result: the close code used if the attempt was
rejected (`some 1008`), the room's connection list afterwards, and the
outputs emitted. -/
def wsConnectPhase (cookie qp : Option String) (getUser : Int → Option UserRow)
    (banned : Int → Bool) (roomRoles : List (Int × String)) (conns : List Conn)
    (ws : Nat) : Option Nat × List Conn × List Emit :=
  match resolveUserId cookie qp with
  | none => (some 1008, conns, [])
  | some uid =>
    match getUser uid with
    | none => (some 1008, conns, [])
    | some u =>
      if banned uid then (some 1008, conns, [])
      else
        let r := connect conns roomRoles ws uid u.username
        (none, r.1, r.2)

/-- C7: a connection attempt whose identity token is missing, malformed or
unresolvable, or whose user is banned from the room, is closed with the
policy-violation code 1008 while the room's connection list is untouched
and nothing is broadcast; and the cookie is consulted first — when a
non-empty cookie is present the query parameter plays no part in the
resolution. -/
theorem unauthenticated_or_banned_rejected (cookie qp : Option String)
    (getUser : Int → Option UserRow) (banned : Int → Bool)
    (roomRoles : List (Int × String)) (conns : List Conn) (ws : Nat) :
    ((resolveUserId cookie qp = none ∨
      (∃ uid, resolveUserId cookie qp = some uid ∧
        (getUser uid = none ∨ banned uid = true))) →
      wsConnectPhase cookie qp getUser banned roomRoles conns ws
        = (some 1008, conns, [])) ∧
    (∀ c : String, c ≠ "" → cookie = some c →
      ∀ qp2 : Option String,
        resolveUserId cookie qp = resolveUserId cookie qp2) := by
  constructor
  · intro hrej
    unfold wsConnectPhase
    rcases hrej with hnone | ⟨uid, huid, hfail⟩
    · rw [hnone]
    · rw [huid]
      dsimp only
      rcases hfail with hu | hb
      · rw [hu]
      · rw [hb]
        cases hg : getUser uid <;> simp
  · intro c hc hcookie qp2
    subst hcookie
    unfold resolveUserId
    have hcb : (c == "") = false := by simp [hc]
    simp [hcb]

/-- Witness for C7: a malformed cookie (`"abc"`) is rejected with 1008
leaving the room untouched; a banned user (id 4) with a valid cookie is
rejected the same way; and a non-empty cookie makes the resolution
independent of the query parameter. -/
theorem unauthenticated_or_banned_rejected_check :
    wsConnectPhase (some "abc") none (fun _ => some ⟨"dora", "user"⟩) (fun _ => false)
        [] [⟨1, 1, "alice", "user"⟩] 9
      = (some 1008, [⟨1, 1, "alice", "user"⟩], []) ∧
    wsConnectPhase (some "4") none (fun _ => some ⟨"dora", "user"⟩) (fun uid => uid == 4)
        [] [⟨1, 1, "alice", "user"⟩] 9
      = (some 1008, [⟨1, 1, "alice", "user"⟩], []) ∧
    resolveUserId (some "4") (some "77") = resolveUserId (some "4") none := by
  refine ⟨?_, ?_, ?_⟩
  · exact (unauthenticated_or_banned_rejected (some "abc") none
      (fun _ => some ⟨"dora", "user"⟩) (fun _ => false)
      [] [⟨1, 1, "alice", "user"⟩] 9).1 (Or.inl (by decide))
  · exact (unauthenticated_or_banned_rejected (some "4") none
      (fun _ => some ⟨"dora", "user"⟩) (fun uid => uid == 4)
      [] [⟨1, 1, "alice", "user"⟩] 9).1 (Or.inr ⟨4, by decide, Or.inr (by decide)⟩)
  · exact (unauthenticated_or_banned_rejected (some "4") (some "77")
      (fun _ => some ⟨"dora", "user"⟩) (fun _ => false)
      [] [] 9).2 "4" (by decide) rfl none

/-- C4: a successful join — resolvable identity, existing user, not banned —
registers exactly one new connection, whose cached role is the room role
table's entry for the user when present and `"user"` otherwise, and emits
exactly one broadcast: a `user_joined` event whose membership snapshot
contains the joining user. -/
theorem join_emits_user_joined (cookie qp : Option String)
    (getUser : Int → Option UserRow) (banned : Int → Bool)
    (roomRoles : List (Int × String)) (conns : List Conn) (ws : Nat)
    (uid : Int) (u : UserRow)
    (hres : resolveUserId cookie qp = some uid)
    (huser : getUser uid = some u)
    (hban : banned uid = false) :
    wsConnectPhase cookie qp getUser banned roomRoles conns ws
      = (none,
         conns ++ [⟨ws, uid, u.username, rolesGet roomRoles uid⟩],
         [.toRoom (.user_joined uid u.username (rolesGet roomRoles uid)
           (get_room_users (conns ++ [⟨ws, uid, u.username, rolesGet roomRoles uid⟩])))]) ∧
    rolesGet roomRoles uid
      = (match roomRoles.find? (fun p => p.1 == uid) with
         | some p => p.2
         | none => "user") ∧
    (⟨uid, u.username, rolesGet roomRoles uid⟩ : UserEntry)
      ∈ get_room_users (conns ++ [⟨ws, uid, u.username, rolesGet roomRoles uid⟩]) := by
  refine ⟨?_, rfl, ?_⟩
  · unfold wsConnectPhase
    rw [hres]
    dsimp only
    rw [huser]
    dsimp only
    rw [hban]
    rfl
  · unfold get_room_users
    rw [List.map_append]
    exact List.mem_append_right _ (by simp)

/-- Witness for C4: user 3 joins a room where the role table maps them to
host; the registered connection caches role host and the single emitted
event is a `user_joined` whose snapshot contains user 3. -/
theorem join_emits_user_joined_check :
    wsConnectPhase (some "3") none
        (fun uid => if uid == 3 then some ⟨"carol", "user"⟩ else none)
        (fun _ => false) [(3, "host")] [⟨1, 1, "alice", "user"⟩] 9
      = (none,
         [⟨1, 1, "alice", "user"⟩, ⟨9, 3, "carol", "host"⟩],
         [.toRoom (.user_joined 3 "carol" "host"
            [⟨1, "alice", "user"⟩, ⟨3, "carol", "host"⟩])]) ∧
    (⟨3, "carol", "host"⟩ : UserEntry) ∈ [⟨1, "alice", "user"⟩, ⟨3, "carol", "host"⟩] := by
  have h := join_emits_user_joined (some "3") none
    (fun uid => if uid == 3 then some ⟨"carol", "user"⟩ else none)
    (fun _ => false) [(3, "host")] [⟨1, 1, "alice", "user"⟩] 9 3 ⟨"carol", "user"⟩
    (by decide) (by decide) (by decide)
  exact ⟨h.1.trans (by decide), by decide⟩

/-- Python `str.strip()` on the whitespace forms exercised here: drop
leading and trailing whitespace characters. -/
def pyStrip (s : String) : String :=
  ⟨((s.data.dropWhile Char.isWhitespace).reverse.dropWhile Char.isWhitespace).reverse⟩

/-- The `chat_message` arm of the endpoint's message loop (lines 561-571):
`text = data.get("message", "").strip()`; broadcast only when the stripped
text is non-empty (`if text:`).  `ts` is the `datetime.utcnow().isoformat()`
string. -/
def handleChatMessage (message : String) (uid : Int) (uname ts : String) : List Emit :=
  let text := pyStrip message
  if !(text == "") then
    [.toRoom (.chat_message uid uname text ts)]
  else []

/-- C8: a `chat_message` whose text is empty after trimming whitespace is
ignored — no broadcast is produced; otherwise exactly one `chat_message`
carrying the sender id, username, the trimmed text and the timestamp is
broadcast to the room. -/
theorem chat_message_trim_behavior (message : String) (uid : Int) (uname ts : String) :
    (pyStrip message = "" → handleChatMessage message uid uname ts = []) ∧
    (pyStrip message ≠ "" → handleChatMessage message uid uname ts
      = [.toRoom (.chat_message uid uname (pyStrip message) ts)]) := by
  unfold handleChatMessage
  constructor
  · intro h
    simp [h]
  · intro h
    simp [h]

/-- Witness for C8: `"  hi  "` broadcasts one event with trimmed text
`"hi"`; `"   "` trims to empty and is ignored. -/
theorem chat_message_trim_behavior_check :
    handleChatMessage "  hi  " 3 "carol" "t0"
      = [.toRoom (.chat_message 3 "carol" "hi" "t0")] ∧
    handleChatMessage "   " 3 "carol" "t0" = [] := by
  have h1 := (chat_message_trim_behavior "  hi  " 3 "carol" "t0").2 (by decide)
  have h2 := (chat_message_trim_behavior "   " 3 "carol" "t0").1 (by decide)
  exact ⟨h1.trans (by decide), h2⟩

/-- The characters after the first comma, or none when no comma occurs. -/
def afterComma : List Char → Option (List Char)
  | [] => none
  | ch :: rest => if ch == ',' then some rest else afterComma rest

/-- `img_data.split(",", 1)`: the part after the first comma when one is
present (the optional data-URI header before it is discarded), otherwise
the whole string. -/
def encodedPart (s : String) : String :=
  match afterComma s.data with
  | some rest => ⟨rest⟩
  | none => s

/-- The `image_upload` arm of the endpoint's message loop (lines 572-595).
`img_data` is `data.get("data")`; a missing or empty value is falsy and
the arm does nothing.  `decodeStore` embeds the externals inside the
`try`: `base64.b64decode` plus the blob write, returning the public URL —
`none` embeds any raised exception, which the bare `except` swallows
(`pass`), emitting nothing.  On success exactly one `image_message` with
the stored URL is broadcast. -/
def handleImageUpload (img_data : Option String) (decodeStore : String → Option String)
    (uid : Int) (uname ts : String) : List Emit :=
  match img_data with
  | none => []
  | some d =>
    if !(d == "") then
      match decodeStore (encodedPart d) with
      | none => []
      | some url => [.toRoom (.image_message uid uname url ts)]
    else []

/-- C9: an `image_upload` whose payload fails to decode or store is
silently dropped — no output at all, in particular no `error` to the
sender, and the handler returns to the message loop; every output the
handler can ever produce is a broadcast `image_message`, and on success
the broadcast carries exactly the stored blob's URL. -/
theorem image_upload_silent_failure (img_data : Option String)
    (decodeStore : String → Option String) (uid : Int) (uname ts : String) :
    (∀ e ∈ handleImageUpload img_data decodeStore uid uname ts,
      ∃ url, e = .toRoom (.image_message uid uname url ts)) ∧
    (∀ d, img_data = some d → d ≠ "" → decodeStore (encodedPart d) = none →
      handleImageUpload img_data decodeStore uid uname ts = []) ∧
    (∀ d url, img_data = some d → d ≠ "" → decodeStore (encodedPart d) = some url →
      handleImageUpload img_data decodeStore uid uname ts
        = [.toRoom (.image_message uid uname url ts)]) := by
  refine ⟨?_, ?_, ?_⟩
  · intro e he
    cases himg : img_data with
    | none => simp [handleImageUpload, himg] at he
    | some d =>
      by_cases hd : d = ""
      · simp [handleImageUpload, himg, hd] at he
      · have hdb : (d == "") = false := by simp [hd]
        cases hdec : decodeStore (encodedPart d) with
        | none => simp [handleImageUpload, himg, hdb, hdec] at he
        | some url =>
          simp [handleImageUpload, himg, hdb, hdec] at he
          exact ⟨url, he⟩
  · intro d himg hd hdec
    have hdb : (d == "") = false := by simp [hd]
    simp [handleImageUpload, himg, hdb, hdec]
  · intro d url himg hd hdec
    have hdb : (d == "") = false := by simp [hd]
    simp [handleImageUpload, himg, hdb, hdec]

/-- Witness for C9 with a concrete store that only accepts `"QUJD"`: the
data-URI payload `"data:image/png;base64,QUJD"` succeeds and broadcasts
the URL, while the undecodable payload `"%%%"` is dropped with no output
of any kind. -/
theorem image_upload_silent_failure_check :
    handleImageUpload (some "%%%")
        (fun s => if s == "QUJD" then some "/uploads/a.png" else none) 3 "carol" "t0"
      = [] ∧
    handleImageUpload (some "data:image/png;base64,QUJD")
        (fun s => if s == "QUJD" then some "/uploads/a.png" else none) 3 "carol" "t0"
      = [.toRoom (.image_message 3 "carol" "/uploads/a.png" "t0")] := by
  have h1 := (image_upload_silent_failure (some "%%%")
    (fun s => if s == "QUJD" then some "/uploads/a.png" else none) 3 "carol" "t0").2.1
    "%%%" rfl (by decide) (by decide)
  have h2 := (image_upload_silent_failure (some "data:image/png;base64,QUJD")
    (fun s => if s == "QUJD" then some "/uploads/a.png" else none) 3 "carol" "t0").2.2
    "data:image/png;base64,QUJD" "/uploads/a.png" rfl (by decide) (by decide)
  exact ⟨h1, h2⟩
